import Mathlib

/-!
# Verification of the bishop-lien-terminal ingestion core

Shallow embedding of the canonical lien record model (`src/models/lien.py`),
the fuzzy column-mapping engine and row transformation of the file-ingestion
adapter (`src/adapters/file_ingestor.py`), and the numeric parsing utilities
(`src/utils/parsing.py`).  Python floats are modelled as exact rationals,
Python `None`/exceptions as `Option`/`Except`, and `dict`s as insertion-ordered
association lists.  The fuzzy scorer (`thefuzz`'s `fuzz.ratio` composed with
`process.extractOne`'s preprocessing) is an external library and is modelled
as an arbitrary scoring function parameter; every structural theorem below
holds for every scorer.
-/

/-! ## ASCII model of the Python `str` methods used by the source -/

/-- Python `str.lower` for the ASCII letters (the only characters the source's
header tables and state codes use). -/
def chLower (c : Char) : Char :=
  match c with
  | 'A' => 'a' | 'B' => 'b' | 'C' => 'c' | 'D' => 'd' | 'E' => 'e' | 'F' => 'f'
  | 'G' => 'g' | 'H' => 'h' | 'I' => 'i' | 'J' => 'j' | 'K' => 'k' | 'L' => 'l'
  | 'M' => 'm' | 'N' => 'n' | 'O' => 'o' | 'P' => 'p' | 'Q' => 'q' | 'R' => 'r'
  | 'S' => 's' | 'T' => 't' | 'U' => 'u' | 'V' => 'v' | 'W' => 'w' | 'X' => 'x'
  | 'Y' => 'y' | 'Z' => 'z'
  | c => c

/-- Python `str.upper` for the ASCII letters. -/
def chUpper (c : Char) : Char :=
  match c with
  | 'a' => 'A' | 'b' => 'B' | 'c' => 'C' | 'd' => 'D' | 'e' => 'E' | 'f' => 'F'
  | 'g' => 'G' | 'h' => 'H' | 'i' => 'I' | 'j' => 'J' | 'k' => 'K' | 'l' => 'L'
  | 'm' => 'M' | 'n' => 'N' | 'o' => 'O' | 'p' => 'P' | 'q' => 'Q' | 'r' => 'R'
  | 's' => 'S' | 't' => 'T' | 'u' => 'U' | 'v' => 'V' | 'w' => 'W' | 'x' => 'X'
  | 'y' => 'Y' | 'z' => 'Z'
  | c => c

/-- ASCII letter test (the "cased character" notion of Python's `str.title`). -/
def chIsAlpha (c : Char) : Bool :=
  (65 ≤ c.toNat && c.toNat ≤ 90) || (97 ≤ c.toNat && c.toNat ≤ 122)

/-- The whitespace characters stripped by Python's `str.strip` and matched by
the regex class `\s`. -/
def isPySpace (c : Char) : Bool :=
  c = ' ' || c = '\t' || c = '\n' || c = '\r' || c = '\x0b' || c = '\x0c'

/-- Python `str.strip` on a character list. -/
def stripList (l : List Char) : List Char :=
  ((l.dropWhile isPySpace).reverse.dropWhile isPySpace).reverse

def pyLower (s : String) : String := ⟨s.data.map chLower⟩

def pyUpper (s : String) : String := ⟨s.data.map chUpper⟩

def pyStrip (s : String) : String := ⟨stripList s.data⟩

/-- One step of Python `str.title`: a cased character is upper-cased when the
previous character is not cased, lower-cased otherwise. -/
def titleAux : Bool → List Char → List Char
  | _, [] => []
  | prevAlpha, c :: cs =>
    (if chIsAlpha c then (if prevAlpha then chLower c else chUpper c) else c)
      :: titleAux (chIsAlpha c) cs

def pyTitle (s : String) : String := ⟨titleAux false s.data⟩

/-! ## Python `round(x, 2)` on exact rationals

Python's `round` uses round-half-to-even.  `rhe` is round-half-to-even to an
integer; `round2 x` is `round(x, 2)`. -/

def rhe (x : ℚ) : ℤ :=
  let f := x.floor
  if x - f < 1 / 2 then f
  else if 1 / 2 < x - f then f + 1
  else if f % 2 = 0 then f else f + 1

def round2 (x : ℚ) : ℚ := (rhe (x * 100) : ℚ) / 100

theorem rat_floor_eq_floor (x : ℚ) : x.floor = ⌊x⌋ := by
  rw [Rat.floor_def', Rat.floor_def]

theorem rhe_intCast (n : ℤ) : rhe (n : ℚ) = n := by
  unfold rhe
  rw [rat_floor_eq_floor]
  norm_num

theorem round2_image (x : ℚ) : round2 (100 - round2 x) = 100 - round2 x := by
  unfold round2
  have h : ((100 : ℚ) - (rhe (x * 100) : ℚ) / 100) * 100 = ((10000 - rhe (x * 100) : ℤ) : ℚ) := by
    push_cast
    ring
  rw [h, rhe_intCast]
  push_cast
  ring

/-! ## The canonical record model (`src/models/lien.py`) -/

def SUPPORTED_STATES : List String :=
  ["IL", "FL", "AZ", "NJ", "IN", "CO", "IA", "MS", "AL", "SC"]

inductive SourcePlatform where
  | REALAUCTION
  | ZEUS
  | MANUAL_UPLOAD
  | UNKNOWN
deriving DecidableEq

/-- A row of an uploaded table: column name to cell value, `none` standing for
a missing/NaN cell (`pd.notna` false). -/
def Row : Type := List (String × Option String)

instance : DecidableEq Row := by
  unfold Row
  infer_instance

/-- Normalized tax lien record (`TaxLien` in `src/models/lien.py`).  Python
floats are exact rationals here.  `auction_date` carries no validation
constraint in the source and is parsed by an external pandas call that never
raises, so it is modelled as the raw optional cell text. -/
structure TaxLien where
  state : String
  county : String
  parcel_id : String
  address : Option String
  assessed_value : Option ℚ
  face_amount : ℚ
  interest_rate_bid : Option ℚ
  auction_date : Option String
  source_platform : SourcePlatform
  raw_data : Option Row
deriving DecidableEq

/-- The single-quote character, written by code point to keep the file free of
string-literal quoting; used to render Python's `repr` of the supported-state
list inside the validation message. -/
def pyQuote : String := String.singleton (Char.ofNat 39)

/-- Python's rendering of a list of strings inside an f-string. -/
def listRepr (l : List String) : String :=
  "[" ++ String.intercalate ", " (l.map (fun s => pyQuote ++ s ++ pyQuote)) ++ "]"

/-- The `ValueError` message raised by `TaxLien.validate_state`. -/
def stateErrorMsg (u : String) : String :=
  "State " ++ pyQuote ++ u ++ pyQuote ++ " not in supported states: " ++ listRepr SUPPORTED_STATES

/-- The `state` field: pydantic's `min_length=2, max_length=2` constraints run
first, then the `validate_state` after-validator upper-cases and checks
membership in `SUPPORTED_STATES`. -/
def validateStateField (v : String) : Except String String :=
  if v.length < 2 then .error "String should have at least 2 characters"
  else if 2 < v.length then .error "String should have at most 2 characters"
  else
    let u := pyUpper v
    if u ∈ SUPPORTED_STATES then .ok u
    else .error (stateErrorMsg u)

/-- The `county` field: pydantic's `min_length=1` constraint runs on the raw
input, then the `normalize_county` after-validator stores
`v.strip().title()`; the validator's result is not re-checked. -/
def validateCountyField (v : String) : Except String String :=
  if v.length < 1 then .error "String should have at least 1 character"
  else .ok (pyTitle (pyStrip v))

/-- An optional pydantic number violating `ge=0`. -/
def optBelowZero (x : Option ℚ) : Bool :=
  match x with
  | some a => decide (a < 0)
  | none => false

/-- An optional pydantic number violating `le=100`. -/
def optAbove100 (x : Option ℚ) : Bool :=
  match x with
  | some a => decide (100 < a)
  | none => false

/-- Constructing a `TaxLien`: every pydantic field constraint and validator,
in field declaration order; a `ValidationError` becomes `.error`. -/
def mkTaxLien (state county parcel_id : String) (address : Option String)
    (assessed_value : Option ℚ) (face_amount : ℚ) (interest_rate_bid : Option ℚ)
    (auction_date : Option String) (source_platform : SourcePlatform)
    (raw_data : Option Row) : Except String TaxLien :=
  match validateStateField state with
  | .error e => .error e
  | .ok st =>
    match validateCountyField county with
    | .error e => .error e
    | .ok cty =>
      if parcel_id.length < 1 then .error "String should have at least 1 character"
      else if optBelowZero assessed_value then
        .error "Input should be greater than or equal to 0"
      else if face_amount < 0 then .error "Input should be greater than or equal to 0"
      else if optBelowZero interest_rate_bid then
        .error "Input should be greater than or equal to 0"
      else if optAbove100 interest_rate_bid then
        .error "Input should be less than or equal to 100"
      else
        .ok { state := st, county := cty, parcel_id := parcel_id, address := address,
              assessed_value := assessed_value, face_amount := face_amount,
              interest_rate_bid := interest_rate_bid, auction_date := auction_date,
              source_platform := source_platform, raw_data := raw_data }

/-- `TaxLien.lien_to_value_ratio`: `round(face_amount / assessed_value * 100, 2)`
when `assessed_value` is truthy (non-`None`, nonzero) and `> 0`, else `None`. -/
def lien_to_value_ratio (l : TaxLien) : Option ℚ :=
  match l.assessed_value with
  | some a => if a ≠ 0 then (if 0 < a then some (round2 (l.face_amount / a * 100)) else none) else none
  | none => none

/-- `TaxLien.equity_cushion`: `round(100 - lien_to_value_ratio, 2)` when the
ratio is defined, else `None`. -/
def equity_cushion (l : TaxLien) : Option ℚ :=
  match lien_to_value_ratio l with
  | some r => some (round2 (100 - r))
  | none => none

/-- `LienBatch` of `src/models/lien.py`.  The scrape date's calendar content
is irrelevant to every operation, so dates are opaque naturals. -/
structure LienBatch where
  liens : List TaxLien
  source_url : Option String
  scrape_timestamp : Option ℕ
  state_filter : Option String
  county_filter : Option String
deriving DecidableEq

def LienBatch.count (b : LienBatch) : ℕ := b.liens.length

def LienBatch.total_face_amount (b : LienBatch) : ℚ :=
  (b.liens.map TaxLien.face_amount).sum

/-- The source's local list `ltvs` inside `LienBatch.avg_ltv`: the
comprehension `[lien.lien_to_value_ratio for lien in self.liens if
lien.lien_to_value_ratio]` — the guard is Python truthiness, so it drops both
`None` and a ratio equal to `0.0`. -/
def truthyLtvs (liens : List TaxLien) : List ℚ :=
  liens.filterMap (fun l =>
    match lien_to_value_ratio l with
    | some r => if r = 0 then none else some r
    | none => none)

/-- `LienBatch.avg_ltv`: `round(sum(ltvs) / len(ltvs), 2)` when `ltvs` is
truthy (non-empty), else `None`. -/
def LienBatch.avg_ltv (b : LienBatch) : Option ℚ :=
  let ltvs := truthyLtvs b.liens
  if ltvs ≠ [] then some (round2 (ltvs.sum / ltvs.length)) else none

/-- `LienBatch.filter_by_ltv`: keep liens whose ratio `is not None` and
`<= max_ltv`; every other batch field is copied. -/
def LienBatch.filter_by_ltv (b : LienBatch) (max_ltv : ℚ) : LienBatch :=
  { liens := b.liens.filter (fun l =>
      match lien_to_value_ratio l with
      | some r => decide (r ≤ max_ltv)
      | none => false),
    source_url := b.source_url, scrape_timestamp := b.scrape_timestamp,
    state_filter := b.state_filter, county_filter := b.county_filter }

/-- `LienBatch.filter_by_face_amount`: keep liens with
`min_amt <= face_amount <= max_amt`; every other batch field is copied. -/
def LienBatch.filter_by_face_amount (b : LienBatch) (min_amt max_amt : ℚ) : LienBatch :=
  { liens := b.liens.filter (fun l =>
      decide (min_amt ≤ l.face_amount ∧ l.face_amount ≤ max_amt)),
    source_url := b.source_url, scrape_timestamp := b.scrape_timestamp,
    state_filter := b.state_filter, county_filter := b.county_filter }

/-! ## Python `float()` on decimal literals

The cleaned strings the source hands to `float` are decimal literals
(optionally signed, optional fractional part, optional exponent); `pyFloat?`
parses exactly those and rejects everything else, as `float` raises
`ValueError` on them. -/

def digitsToNat (l : List Char) : ℕ :=
  l.foldl (fun a c => a * 10 + (c.toNat - 48)) 0

/-- The mantissa grammar: `digits`, `digits.digits?`, or `.digits`. -/
def parseUnsigned (l : List Char) : Option ℚ :=
  let ip := l.takeWhile Char.isDigit
  let rest := l.dropWhile Char.isDigit
  match rest with
  | [] => if ip = [] then none else some (digitsToNat ip)
  | '.' :: frac =>
    if frac.all Char.isDigit ∧ (ip ≠ [] ∨ frac ≠ []) then
      some ((digitsToNat ip : ℚ) + (digitsToNat frac : ℚ) / ((10 : ℚ) ^ frac.length))
    else none
  | _ => none

/-- Split a literal at its first exponent marker `e`/`E`. -/
def splitExp : List Char → List Char × Option (List Char)
  | [] => ([], none)
  | c :: r =>
    if c = 'e' ∨ c = 'E' then ([], some r)
    else
      let p := splitExp r
      (c :: p.1, p.2)

def parseSignedInt (l : List Char) : Option ℤ :=
  match l with
  | '+' :: r => if r ≠ [] ∧ r.all Char.isDigit then some (digitsToNat r) else none
  | '-' :: r => if r ≠ [] ∧ r.all Char.isDigit then some (-(digitsToNat r : ℤ)) else none
  | r => if r ≠ [] ∧ r.all Char.isDigit then some (digitsToNat r) else none

def pyFloat? (s : String) : Option ℚ :=
  let p : ℚ × List Char :=
    match s.data with
    | '+' :: r => (1, r)
    | '-' :: r => (-1, r)
    | r => (1, r)
  let me := splitExp p.2
  match parseUnsigned me.1 with
  | none => none
  | some m =>
    match me.2 with
    | none => some (p.1 * m)
    | some e =>
      match parseSignedInt e with
      | none => none
      | some k => some (p.1 * m * (10 : ℚ) ^ k)

/-! ## Numeric parsing (`FileIngestorAdapter._parse_numeric` and
`src/utils/parsing.py` `parse_currency`) -/

/-- `re.sub(r"[$,%\s]", "", value)`. -/
def cleanNumeric (s : String) : String :=
  ⟨s.data.filter (fun c => !(c = '$' || c = ',' || c = '%' || isPySpace c))⟩

/-- `FileIngestorAdapter._parse_numeric`: `None` for a falsy value, strip
`$ , %` and whitespace, then `float`; any `ValueError` becomes `None`.  Note
that accounting parentheses are not handled here. -/
def parse_numeric (value : Option String) : Option ℚ :=
  match value with
  | none => none
  | some v =>
    if v = "" then none
    else
      let cleaned := cleanNumeric v
      if cleaned = "" then none else pyFloat? cleaned

/-- `re.sub(r"[$,\s]", "", value)` (no percent sign here). -/
def cleanCurrency (l : List Char) : List Char :=
  l.filter (fun c => !(c = '$' || c = ',' || isPySpace c))

/-- `parse_currency` of `src/utils/parsing.py`: strip, treat a fully
parenthesized value as an accounting negative, strip `$ ,` and whitespace,
`float`, then negate when parenthesized. -/
def parse_currency (value : Option String) : Option ℚ :=
  match value with
  | none => none
  | some v0 =>
    if v0 = "" then none
    else
      let v := stripList v0.data
      let isNeg := v.head? = some '(' ∧ v.getLast? = some ')'
      let v2 := if isNeg then (v.drop 1).dropLast else v
      let cleaned := cleanCurrency v2
      if cleaned = [] then none
      else
        match pyFloat? ⟨cleaned⟩ with
        | none => none
        | some r => some (if isNeg then -r else r)

/-! ## The column-mapping engine (`FileIngestorAdapter`)

`COLUMN_CANDIDATES` is the fixed target-field table in its declaration order;
`FUZZY_THRESHOLD` is 70.  The scorer `score` abstracts
`process.extractOne(col_lower, candidates, scorer=fuzz.ratio)`'s per-candidate
score (query first, candidate second). -/

def COLUMN_CANDIDATES : List (String × List String) :=
  [("parcel_id",
    ["parcel id", "parcel number", "parcel", "parcel #", "pin",
     "property index number", "apn", "assessor parcel number", "account number",
     "account", "tax id", "property id", "certificate number", "cert #",
     "key number"]),
   ("address",
    ["property address", "address", "situs address", "location",
     "property location", "street address", "street", "site address"]),
   ("assessed_value",
    ["assessed value", "assessed", "total assessed value", "just value",
     "market value", "property value", "taxable value", "total value",
     "fair market value", "fmv"]),
   ("face_amount",
    ["face amount", "face value", "tax amount", "amount due", "total due",
     "total tax", "taxes due", "delinquent amount", "minimum bid",
     "opening bid", "upset price", "redemption amount", "lien amount"]),
   ("interest_rate_bid",
    ["interest rate", "rate", "bid rate", "winning rate", "bid %",
     "interest %"]),
   ("auction_date",
    ["auction date", "sale date", "tax sale date", "date"]),
   ("county",
    ["county", "county name"])]

def FUZZY_THRESHOLD : ℕ := 70

/-- The score `process.extractOne(q, cands, scorer)` reports: the best
per-candidate score (`extractOne` never returns `None` here because every
candidate list is non-empty). -/
def extractOneScore (score : String → String → ℕ) (q : String) (cands : List String) : ℕ :=
  cands.foldl (fun b c => max b (score q c)) 0

/-- The inner loop of `_detect_column_mappings` for one target field: scan the
columns in order, skipping claimed ones; a case-insensitive exact hit on the
candidate set scores 100 and stops the scan; otherwise the fuzzy score updates
the running best on strict improvement. -/
def selectBest (score : String → String → ℕ) (cands : List String) :
    List String → List String → Option String → ℕ → Option String × ℕ
  | [], _, best, bs => (best, bs)
  | col :: rest, used, best, bs =>
    if col ∈ used then selectBest score cands rest used best bs
    else
      let cl := pyStrip (pyLower col)
      if cl ∈ cands.map pyLower then (some col, 100)
      else
        let s := extractOneScore score cl cands
        if bs < s then selectBest score cands rest used (some col) s
        else selectBest score cands rest used best bs

/-- The outer loop of `_detect_column_mappings`: target fields in declaration
order; a best match at or above the threshold claims its column, which later
target fields skip.  The claimed set `used_columns` is exactly the key set of
the accumulated mapping. -/
def detectFrom (score : String → String → ℕ) (columns : List String) :
    List (String × List String) → List (String × String) → List (String × String)
  | [], mappings => mappings
  | (tf, cands) :: rest, mappings =>
    match selectBest score cands columns (mappings.map Prod.fst) none 0 with
    | (some h, s) =>
      if FUZZY_THRESHOLD ≤ s then detectFrom score columns rest (mappings ++ [(h, tf)])
      else detectFrom score columns rest mappings
    | (none, _) => detectFrom score columns rest mappings

/-- `FileIngestorAdapter._detect_column_mappings`. -/
def detectColumnMappings (score : String → String → ℕ) (columns : List String) :
    List (String × String) :=
  detectFrom score columns COLUMN_CANDIDATES []

/-- The column the `i`-th target field claims when its turn comes (its
`selectBest` over the columns still unclaimed after the first `i` target
fields, accepted only at or above the threshold). -/
def claimedAt (score : String → String → ℕ) (columns : List String) (i : ℕ) : Option String :=
  match (COLUMN_CANDIDATES.drop i).head? with
  | none => none
  | some (_, cands) =>
    let acc := detectFrom score columns (COLUMN_CANDIDATES.take i) []
    match selectBest score cands columns (acc.map Prod.fst) none 0 with
    | (some h, s) => if FUZZY_THRESHOLD ≤ s then some h else none
    | (none, _) => none

/-! ## Python `dict` operations, insertion-ordered -/

/-- `d[k] = v` on an insertion-ordered association list with unique keys:
update in place when the key exists, else append. -/
def dictSet (m : List (String × String)) (k v : String) : List (String × String) :=
  if m.any (fun p => p.1 == k) then m.map (fun p => if p.1 == k then (k, v) else p)
  else m ++ [(k, v)]

/-- `d.get(k)`. -/
def dictGet? (m : List (String × String)) (k : String) : Option String :=
  (m.find? (fun p => p.1 == k)).map Prod.snd

/-- The override loop in `FileIngestorAdapter.fetch`: each override
`source_col -> target_field` is written into the detected mapping when (and
only when) `source_col` is one of the table's columns. -/
def applyOverrides (mappings : List (String × String)) (overrides : List (String × String))
    (columns : List String) : List (String × String) :=
  overrides.foldl (fun m p => if p.1 ∈ columns then dictSet m p.1 p.2 else m) mappings

/-- `{v: k for k, v in mappings.items()}` in `_transform_dataframe`, with the
Python comprehension's last-write-wins on duplicate values. -/
def reverseMap (m : List (String × String)) : List (String × String) :=
  m.foldl (fun acc p => dictSet acc p.2 p.1) []

/-! ## Row transformation (`FileIngestorAdapter._transform_dataframe`) -/

/-- `row[col]` with the `pd.notna` test: `none` when the column is absent,
`some none` when present but NaN. -/
def rowGet? (row : Row) (c : String) : Option (Option String) :=
  (row.find? (fun p => p.1 == c)).map Prod.snd

/-- `FileIngestorAdapter._get_mapped_value`: look the target field up in the
reverse map, require a truthy source column present in the row, and a
non-NaN value. -/
def getMappedValue (row : Row) (rm : List (String × String)) (target : String) :
    Option String :=
  match dictGet? rm target with
  | none => none
  | some col =>
    if col = "" then none
    else
      match rowGet? row col with
      | some (some v) => some v
      | _ => none

/-- Python `a or b` for an optional string (`None` and `""` are falsy). -/
def orStr (a : Option String) (b : String) : String :=
  match a with
  | some s => if s = "" then b else s
  | none => b

/-- Python `a or 0.0` for an optional number (`None` and `0.0` are falsy). -/
def orZero (a : Option ℚ) : ℚ :=
  match a with
  | some q => if q = 0 then 0 else q
  | none => 0

/-- One iteration of the `_transform_dataframe` row loop: skip when the
mapped parcel id is missing or falsy, otherwise construct the record, and
skip the row when construction raises. -/
def transformRow (state : String) (county? : Option String)
    (mappings : List (String × String)) (row : Row) : Option TaxLien :=
  let rm := reverseMap mappings
  match getMappedValue row rm "parcel_id" with
  | none => none
  | some pid =>
    if pid = "" then none
    else
      match mkTaxLien state
          (orStr (getMappedValue row rm "county") (orStr county? "Unknown"))
          (pyStrip pid)
          (getMappedValue row rm "address")
          (parse_numeric (getMappedValue row rm "assessed_value"))
          (orZero (parse_numeric (getMappedValue row rm "face_amount")))
          (parse_numeric (getMappedValue row rm "interest_rate_bid"))
          (getMappedValue row rm "auction_date")
          SourcePlatform.MANUAL_UPLOAD
          (some row) with
      | .ok l => some l
      | .error _ => none

/-- `FileIngestorAdapter._transform_dataframe` over the table's rows. -/
def transformDataframe (state : String) (county? : Option String)
    (mappings : List (String × String)) (rows : List Row) : List TaxLien :=
  rows.filterMap (transformRow state county? mappings)

/-- `FileIngestorAdapter.fetch` after the dataframe is loaded: detect the
mapping, write the overrides over it, transform the rows, and wrap the batch
with its provenance fields (`today` stands for `date.today()`). -/
def fetchModel (score : String → String → ℕ) (state : String) (county? : Option String)
    (overrides : List (String × String)) (columns : List String) (rows : List Row)
    (filePath : Option String) (today : ℕ) : LienBatch :=
  let detected := detectColumnMappings score columns
  let mappings := applyOverrides detected overrides columns
  { liens := transformDataframe state county? mappings rows,
    source_url := filePath,
    scrape_timestamp := some today,
    state_filter := some state,
    county_filter := county? }

/-- A row has a resolvable, non-empty (truthy) parcel id under a mapping. -/
def rowHasParcel (mappings : List (String × String)) (r : Row) : Bool :=
  match getMappedValue r (reverseMap mappings) "parcel_id" with
  | some p => p ≠ ""
  | none => false

/-- The record construction attempted for a row (the `TaxLien(...)` call of
`_transform_dataframe`) succeeds. -/
def rowConstructs (state : String) (county? : Option String)
    (mappings : List (String × String)) (r : Row) : Bool :=
  let rm := reverseMap mappings
  match getMappedValue r rm "parcel_id" with
  | none => false
  | some pid =>
    match mkTaxLien state
        (orStr (getMappedValue r rm "county") (orStr county? "Unknown"))
        (pyStrip pid)
        (getMappedValue r rm "address")
        (parse_numeric (getMappedValue r rm "assessed_value"))
        (orZero (parse_numeric (getMappedValue r rm "face_amount")))
        (parse_numeric (getMappedValue r rm "interest_rate_bid"))
        (getMappedValue r rm "auction_date")
        SourcePlatform.MANUAL_UPLOAD
        (some r) with
    | .ok _ => true
    | .error _ => false

deriving instance DecidableEq for Except

/-! ## Theorems.  Batteries marks the `Rat` field operations `@[irreducible]`,
which only hides them from elaboration-time reduction; they are made
semireducible here so that concrete rational computations can be settled by
`decide`. -/

section

attribute [local semireducible] Rat.mul Rat.add Rat.sub Rat.inv

/-- `lien_to_value_ratio` when `assessed_value` is absent. -/
theorem ltv_none (l : TaxLien) (ha : l.assessed_value = none) :
    lien_to_value_ratio l = none := by
  unfold lien_to_value_ratio
  rw [ha]

/-- The truthiness test in `lien_to_value_ratio` collapses to `0 < a` when
`assessed_value` is present. -/
theorem ltv_some (l : TaxLien) (a : ℚ) (ha : l.assessed_value = some a) :
    lien_to_value_ratio l =
      if 0 < a then some (round2 (l.face_amount / a * 100)) else none := by
  unfold lien_to_value_ratio
  rw [ha]
  show (if a ≠ 0 then (if 0 < a then some (round2 (l.face_amount / a * 100)) else none)
      else none) = _
  by_cases h0 : a = 0
  · subst h0
    norm_num
  · rw [if_pos h0]

/-- A defined LTV ratio is in the image of `round2`. -/
theorem ltv_image (l : TaxLien) (r : ℚ) (h : lien_to_value_ratio l = some r) :
    ∃ x, r = round2 x := by
  rcases ha : l.assessed_value with _ | a
  · rw [ltv_none l ha] at h
    cases h
  · rw [ltv_some l a ha] at h
    by_cases hp : 0 < a
    · rw [if_pos hp] at h
      exact ⟨_, (Option.some_inj.mp h).symm⟩
    · rw [if_neg hp] at h
      cases h

/-- C1.  For every record: the LTV ratio is defined iff `assessed_value` is
present and strictly positive, in which case it is
`round(face_amount / assessed_value * 100, 2)`; the equity cushion is
`100 - ratio` exactly when the ratio is defined, and absent otherwise. -/
theorem c1_ltv_and_equity_cushion (l : TaxLien) :
    ((lien_to_value_ratio l).isSome ↔ ∃ a, l.assessed_value = some a ∧ 0 < a) ∧
    (∀ a, l.assessed_value = some a → 0 < a →
      lien_to_value_ratio l = some (round2 (l.face_amount / a * 100))) ∧
    (∀ r, lien_to_value_ratio l = some r → equity_cushion l = some (100 - r)) ∧
    (lien_to_value_ratio l = none → equity_cushion l = none) := by
  refine ⟨?_, ?_, ?_, ?_⟩
  · rcases ha : l.assessed_value with _ | a
    · rw [ltv_none l ha]
      simp [ha]
    · rw [ltv_some l a ha]
      by_cases hp : 0 < a <;> simp [ha, hp]
  · intro a ha hp
    rw [ltv_some l a ha, if_pos hp]
  · intro r hr
    obtain ⟨x, hx⟩ := ltv_image l r hr
    unfold equity_cushion
    rw [hr]
    show some (round2 (100 - r)) = some (100 - r)
    rw [hx, round2_image]
  · intro h
    unfold equity_cushion
    rw [h]

def c1SampleLien : TaxLien :=
  { state := "FL", county := "Duval", parcel_id := "12-34-56", address := none,
    assessed_value := some 25000, face_amount := 1250, interest_rate_bid := none,
    auction_date := none, source_platform := .MANUAL_UPLOAD, raw_data := none }

theorem c1_witness :
    lien_to_value_ratio c1SampleLien = some (round2 (1250 / 25000 * 100)) ∧
    equity_cushion c1SampleLien = some (100 - round2 (1250 / 25000 * 100)) := by
  have h := c1_ltv_and_equity_cushion c1SampleLien
  have h1 := h.2.1 25000 rfl (by norm_num)
  exact ⟨h1, h.2.2.1 _ h1⟩

/-- The truthy-filtered LTV list is empty iff every record's ratio is absent
or zero. -/
theorem truthyLtvs_eq_nil (liens : List TaxLien) :
    truthyLtvs liens = [] ↔
      ∀ l ∈ liens, lien_to_value_ratio l = none ∨ lien_to_value_ratio l = some 0 := by
  unfold truthyLtvs
  rw [List.filterMap_eq_nil]
  constructor
  · intro hh l hl
    have h := hh l hl
    rcases hr : lien_to_value_ratio l with _ | r
    · exact Or.inl rfl
    · right
      rw [hr] at h
      by_cases h0 : r = 0
      · rw [h0]
      · have h2 : (if r = 0 then (none : Option ℚ) else some r) = none := h
        rw [if_neg h0] at h2
        cases h2
  · intro hh l hl
    rcases hh l hl with h | h <;> rw [h] <;> simp

/-- C2 (amended).  `avg_ltv` is undefined exactly when every record's ratio is
undefined or equal to 0 (the comprehension guard is truthiness, dropping
defined zero ratios); when some record has a defined nonzero ratio, it is the
mean of the defined *nonzero* ratios, rounded to two decimals. -/
theorem c2_avg_ltv_truthy (b : LienBatch) :
    (b.avg_ltv = none ↔
      ∀ l ∈ b.liens, lien_to_value_ratio l = none ∨ lien_to_value_ratio l = some 0) ∧
    (truthyLtvs b.liens ≠ [] →
      b.avg_ltv =
        some (round2 ((truthyLtvs b.liens).sum / ((truthyLtvs b.liens).length : ℚ)))) := by
  constructor
  · rw [← truthyLtvs_eq_nil]
    unfold LienBatch.avg_ltv
    by_cases he : truthyLtvs b.liens = [] <;> simp [he]
  · intro hne
    unfold LienBatch.avg_ltv
    simp [hne]

/-- A record whose LTV ratio is defined and equal to 0. -/
def zeroLtvLien : TaxLien :=
  { state := "FL", county := "Duval", parcel_id := "Z1", address := none,
    assessed_value := some 100, face_amount := 0, interest_rate_bid := none,
    auction_date := none, source_platform := .MANUAL_UPLOAD, raw_data := none }

def zeroLtvBatch : LienBatch :=
  { liens := [zeroLtvLien], source_url := none, scrape_timestamp := none,
    state_filter := none, county_filter := none }

def ltvHundredthLienA : TaxLien :=
  { state := "FL", county := "Duval", parcel_id := "A1", address := none,
    assessed_value := some 10000, face_amount := 1, interest_rate_bid := none,
    auction_date := none, source_platform := .MANUAL_UPLOAD, raw_data := none }

def ltvHundredthLienB : TaxLien :=
  { state := "FL", county := "Duval", parcel_id := "B1", address := none,
    assessed_value := some 10000, face_amount := 2, interest_rate_bid := none,
    auction_date := none, source_platform := .MANUAL_UPLOAD, raw_data := none }

def ltvRoundingBatch : LienBatch :=
  { liens := [ltvHundredthLienA, ltvHundredthLienB], source_url := none,
    scrape_timestamp := none, state_filter := none, county_filter := none }

/-- C2 counterexample.  A batch whose single record has a defined ratio equal
to 0 has `avg_ltv = None` (the claim requires the mean 0); moreover `avg_ltv`
rounds: on defined ratios 0.01 and 0.02 it reports 0.02, not the exact mean
0.015. -/
theorem c2_counterexample :
    lien_to_value_ratio zeroLtvLien = some 0 ∧
    zeroLtvBatch.avg_ltv = none ∧
    ltvRoundingBatch.avg_ltv = some (2 / 100) ∧
    ((1 : ℚ) / 100 + 2 / 100) / 2 ≠ 2 / 100 := by decide

def c2WitnessBatch : LienBatch :=
  { liens := [c1SampleLien], source_url := none, scrape_timestamp := none,
    state_filter := none, county_filter := none }

theorem c2_witness :
    c2WitnessBatch.avg_ltv =
      some (round2 ((truthyLtvs c2WitnessBatch.liens).sum /
        ((truthyLtvs c2WitnessBatch.liens).length : ℚ))) :=
  (c2_avg_ltv_truthy c2WitnessBatch).2 (by decide)

/-- C7.  Filtering by an LTV ceiling keeps exactly the records whose ratio is
defined and at most the ceiling (order preserved), and copies every
non-`liens` field; the operation constructs a new batch, leaving the source
expression untouched (the model is pure). -/
theorem c7_filter_by_ltv (b : LienBatch) (c : ℚ) :
    (∀ l, l ∈ (b.filter_by_ltv c).liens ↔
      l ∈ b.liens ∧ ∃ r, lien_to_value_ratio l = some r ∧ r ≤ c) ∧
    (b.filter_by_ltv c).liens.Sublist b.liens ∧
    (b.filter_by_ltv c).source_url = b.source_url ∧
    (b.filter_by_ltv c).scrape_timestamp = b.scrape_timestamp ∧
    (b.filter_by_ltv c).state_filter = b.state_filter ∧
    (b.filter_by_ltv c).county_filter = b.county_filter := by
  refine ⟨?_, List.filter_sublist _, rfl, rfl, rfl, rfl⟩
  intro l
  show l ∈ b.liens.filter _ ↔ _
  rw [List.mem_filter]
  apply and_congr_right
  intro _
  rcases hr : lien_to_value_ratio l with _ | r <;> simp [hr]

/-- C10.  Filtering by a face-amount range keeps exactly the records with
`min_amt ≤ face_amount ≤ max_amt`, both bounds inclusive, preserves order,
and copies every non-`liens` field. -/
theorem c10_filter_by_face_amount (b : LienBatch) (min_amt max_amt : ℚ) :
    (∀ l, l ∈ (b.filter_by_face_amount min_amt max_amt).liens ↔
      l ∈ b.liens ∧ min_amt ≤ l.face_amount ∧ l.face_amount ≤ max_amt) ∧
    (b.filter_by_face_amount min_amt max_amt).liens.Sublist b.liens ∧
    (b.filter_by_face_amount min_amt max_amt).source_url = b.source_url ∧
    (b.filter_by_face_amount min_amt max_amt).scrape_timestamp = b.scrape_timestamp ∧
    (b.filter_by_face_amount min_amt max_amt).state_filter = b.state_filter ∧
    (b.filter_by_face_amount min_amt max_amt).county_filter = b.county_filter := by
  refine ⟨?_, List.filter_sublist _, rfl, rfl, rfl, rfl⟩
  intro l
  show l ∈ b.liens.filter _ ↔ _
  rw [List.mem_filter]
  apply and_congr_right
  intro _
  simp

/-! ### County normalization (C9) -/

theorem chUpper_chLower (c : Char) : chUpper (chLower c) = chUpper c := by
  unfold chLower
  split <;> first | rfl | (subst_vars; decide)

theorem chIsAlpha_chLower (c : Char) : chIsAlpha (chLower c) = chIsAlpha c := by
  unfold chLower
  split <;> first | rfl | (subst_vars; decide)

theorem chLower_of_not_alpha (c : Char) (h : chIsAlpha c = false) : chLower c = c := by
  unfold chLower
  split <;> first | rfl | (subst_vars; simp [chIsAlpha] at h)

/-- `str.title` depends only on the lower-cased character list: case-folded
equal inputs titlecase equally. -/
theorem titleAux_congr (b : Bool) (l1 : List Char) : ∀ (l2 : List Char),
    l1.map chLower = l2.map chLower → titleAux b l1 = titleAux b l2 := by
  induction l1 generalizing b with
  | nil =>
    intro l2 h
    cases l2 with
    | nil => rfl
    | cons d t2 => simp at h
  | cons c t ih =>
    intro l2 h
    cases l2 with
    | nil => simp at h
    | cons d t2 =>
      simp only [List.map_cons, List.cons.injEq] at h
      obtain ⟨hcd, ht⟩ := h
      have halpha : chIsAlpha c = chIsAlpha d := by
        rw [← chIsAlpha_chLower c, hcd, chIsAlpha_chLower]
      show (if chIsAlpha c then (if b then chLower c else chUpper c) else c)
            :: titleAux (chIsAlpha c) t
          = (if chIsAlpha d then (if b then chLower d else chUpper d) else d)
            :: titleAux (chIsAlpha d) t2
      rw [← halpha]
      congr 1
      · by_cases ha : chIsAlpha c
        · rw [if_pos ha, if_pos ha]
          cases b
          · show chUpper c = chUpper d
            rw [← chUpper_chLower c, hcd, chUpper_chLower]
          · exact hcd
        · rw [if_neg ha, if_neg ha]
          have hc := chLower_of_not_alpha c (Bool.not_eq_true _ ▸ ha)
          have hd := chLower_of_not_alpha d (by rw [← halpha]; exact Bool.not_eq_true _ ▸ ha)
          rw [← hc, ← hd, hcd]
      · exact ih (chIsAlpha c) t2 ht

/-- `str.title` of a non-empty string is non-empty. -/
theorem pyTitle_eq_empty_iff (s : String) : pyTitle s = "" ↔ s = "" := by
  constructor
  · intro h
    by_contra hne
    have hd : s.data ≠ [] := by
      intro hh
      exact hne (String.ext hh)
    obtain ⟨c, t, hct⟩ := List.exists_cons_of_ne_nil hd
    have h2 : titleAux false s.data = [] := congrArg String.data h
    rw [hct] at h2
    simp [titleAux] at h2
  · intro h
    rw [h]
    rfl

/-- C9 (amended).  The stored county is `title(strip(input))`; the
normalization is deterministic (inputs equal up to case and surrounding
whitespace store the same value); but the stored value *is* the empty string
when the trimmed input is empty, because the `min_length=1` check runs on the
raw input before the normalizer. -/
theorem c9_county_title_normalization :
    (∀ v, 1 ≤ v.length → validateCountyField v = .ok (pyTitle (pyStrip v))) ∧
    (∀ st cty pid addr av fa rate d sp rd l,
      mkTaxLien st cty pid addr av fa rate d sp rd = .ok l →
      l.county = pyTitle (pyStrip cty)) ∧
    (∀ x y, pyLower (pyStrip x) = pyLower (pyStrip y) →
      pyTitle (pyStrip x) = pyTitle (pyStrip y)) ∧
    (∀ v, pyTitle (pyStrip v) = "" ↔ pyStrip v = "") := by
  refine ⟨?_, ?_, ?_, fun v => pyTitle_eq_empty_iff (pyStrip v)⟩
  · intro v hv
    unfold validateCountyField
    rw [if_neg (by omega)]
  · intro st cty pid addr av fa rate d sp rd l h
    unfold mkTaxLien at h
    split at h
    · cases h
    next st' hs =>
      split at h
      · cases h
      next cty' hc =>
        split_ifs at h
        injection h with h2
        unfold validateCountyField at hc
        split_ifs at hc
        injection hc with h3
        rw [← h2]
        exact h3.symm
  · intro x y h
    have h2 : (stripList x.data).map chLower = (stripList y.data).map chLower :=
      congrArg String.data h
    exact congrArg String.mk (titleAux_congr false _ _ h2)

theorem c9_counterexample :
    mkTaxLien "FL" " " "P1" none none 0 none none SourcePlatform.MANUAL_UPLOAD none =
      .ok { state := "FL", county := "", parcel_id := "P1", address := none,
            assessed_value := none, face_amount := 0, interest_rate_bid := none,
            auction_date := none, source_platform := SourcePlatform.MANUAL_UPLOAD,
            raw_data := none } ∧
    (" " : String).length = 1 := by decide

theorem c9_witness :
    validateCountyField " Duval " = .ok (pyTitle (pyStrip " Duval ")) ∧
    pyTitle (pyStrip " Duval ") = pyTitle (pyStrip "duval") := by
  constructor
  · exact c9_county_title_normalization.1 " Duval " (by decide)
  · exact c9_county_title_normalization.2.2.1 " Duval " "duval" (by decide)

/-! ### Region-code validation (C6) -/

/-- C6 (amended).  For a two-character input: a supported code in any letter
case constructs successfully and is stored upper-cased; an unsupported code
fails with the message naming the (upper-cased) value and the supported set.
(Inputs of any other length fail pydantic's length constraints first, whose
message does not name the supported set — see the counterexample.) -/
theorem c6_state_code_validation (v county parcel : String) (addr : Option String)
    (av : Option ℚ) (fa : ℚ) (rate : Option ℚ) (d : Option String)
    (sp : SourcePlatform) (rd : Option Row)
    (hlen : v.length = 2) (hc : 1 ≤ county.length) (hp : 1 ≤ parcel.length)
    (hav : optBelowZero av = false) (hfa : ¬fa < 0)
    (hr1 : optBelowZero rate = false) (hr2 : optAbove100 rate = false) :
    (pyUpper v ∈ SUPPORTED_STATES →
      mkTaxLien v county parcel addr av fa rate d sp rd =
        .ok { state := pyUpper v, county := pyTitle (pyStrip county),
              parcel_id := parcel, address := addr, assessed_value := av,
              face_amount := fa, interest_rate_bid := rate, auction_date := d,
              source_platform := sp, raw_data := rd }) ∧
    (pyUpper v ∉ SUPPORTED_STATES →
      mkTaxLien v county parcel addr av fa rate d sp rd =
        .error (stateErrorMsg (pyUpper v))) := by
  have hcty : validateCountyField county = .ok (pyTitle (pyStrip county)) := by
    unfold validateCountyField
    rw [if_neg (by omega)]
  have hp1 : ¬parcel.length < 1 := by omega
  constructor <;> intro hmem
  · have hs : validateStateField v = .ok (pyUpper v) := by
      unfold validateStateField
      rw [if_neg (by omega), if_neg (by omega), if_pos hmem]
    unfold mkTaxLien
    rw [hs, hcty]
    show (if parcel.length < 1 then _
      else if optBelowZero av = true then _
      else if fa < 0 then _
      else if optBelowZero rate = true then _
      else if optAbove100 rate = true then _ else _) = _
    rw [if_neg hp1, if_neg (by rw [hav]; exact Bool.false_ne_true), if_neg hfa,
      if_neg (by rw [hr1]; exact Bool.false_ne_true),
      if_neg (by rw [hr2]; exact Bool.false_ne_true)]
  · have hs : validateStateField v = .error (stateErrorMsg (pyUpper v)) := by
      unfold validateStateField
      rw [if_neg (by omega), if_neg (by omega), if_neg hmem]
    unfold mkTaxLien
    rw [hs]

/-- C6 counterexample.  `"CAL"` is outside the supported set, yet construction
fails with pydantic's length message, which names neither the offending value
nor the supported set. -/
theorem c6_counterexample :
    pyUpper "CAL" ∉ SUPPORTED_STATES ∧
    mkTaxLien "CAL" "Duval" "P1" none none 0 none none SourcePlatform.MANUAL_UPLOAD none =
      .error "String should have at most 2 characters" ∧
    ¬(listRepr SUPPORTED_STATES).data <:+: "String should have at most 2 characters".data ∧
    ¬("CAL" : String).data <:+: "String should have at most 2 characters".data := by
  refine ⟨by decide, by decide, by decide, by decide⟩

theorem c6_witness :
    mkTaxLien "fl" "duval" "P1" none none 0 none none SourcePlatform.MANUAL_UPLOAD none =
      .ok { state := pyUpper "fl", county := pyTitle (pyStrip "duval"), parcel_id := "P1",
            address := none, assessed_value := none, face_amount := 0,
            interest_rate_bid := none, auction_date := none,
            source_platform := SourcePlatform.MANUAL_UPLOAD, raw_data := none } :=
  (c6_state_code_validation "fl" "duval" "P1" none none 0 none none
    SourcePlatform.MANUAL_UPLOAD none (by decide) (by decide) (by decide) (by decide)
    (by norm_num) (by decide) (by decide)).1 (by decide)

/-! ### Numeric decoration tolerance (C8) -/

theorem pyFloat?_empty : pyFloat? "" = none := rfl

/-- C8 (amended).  The adapter's `_parse_numeric` strips currency symbols,
thousands separators, percent signs and whitespace, then parses, so any value
whose stripped form is a numeric literal parses to that number; accounting
parentheses are *not* handled by `_parse_numeric` (see the counterexample) —
only the standalone utility `parse_currency` parses a fully parenthesized
value as its negation. -/
theorem c8_numeric_decoration :
    (∀ s q, s ≠ "" → pyFloat? (cleanNumeric s) = some q →
      parse_numeric (some s) = some q) ∧
    (∀ t q, pyFloat? ⟨cleanCurrency t.data⟩ = some q → cleanCurrency t.data ≠ [] →
      parse_currency (some ("(" ++ t ++ ")")) = some (-q)) := by
  constructor
  · intro s q hs hq
    have hcl : ¬cleanNumeric s = "" := by
      intro hh
      rw [hh, pyFloat?_empty] at hq
      cases hq
    show (if s = "" then none
      else if cleanNumeric s = "" then none else pyFloat? (cleanNumeric s)) = some q
    rw [if_neg hs, if_neg hcl, hq]
  · intro t q hq hne
    have hdata : ("(" ++ t ++ ")").data = '(' :: (t.data ++ [')']) := by
      simp [String.data_append]
    have hne0 : ¬("(" ++ t ++ ")") = "" := by
      intro hh
      have h2 := congrArg String.data hh
      rw [hdata] at h2
      cases h2
    have hstrip : stripList (("(" ++ t ++ ")").data) = '(' :: (t.data ++ [')']) := by
      rw [hdata]
      unfold stripList
      rw [List.dropWhile_cons]
      rw [show isPySpace '(' = false from rfl]
      show (('(' :: (t.data ++ [')'])).reverse.dropWhile isPySpace).reverse = _
      rw [show ('(' : Char) :: (t.data ++ [')']) = ('(' :: t.data) ++ [')'] from rfl,
        List.reverse_append]
      show (List.dropWhile isPySpace (')' :: ('(' :: t.data).reverse)).reverse = _
      rw [List.dropWhile_cons]
      rw [show isPySpace ')' = false from rfl]
      simp
    have hcons : ('(' : Char) :: (t.data ++ [')']) = ('(' :: t.data) ++ [')'] := rfl
    have hhead : (('(' : Char) :: (t.data ++ [')'])).head? = some '(' := rfl
    have hlast : (('(' : Char) :: (t.data ++ [')'])).getLast? = some ')' := by
      rw [hcons]
      exact List.getLast?_concat _
    have hcond : (('(' : Char) :: (t.data ++ [')'])).head? = some '(' ∧
        (('(' : Char) :: (t.data ++ [')'])).getLast? = some ')' := ⟨hhead, hlast⟩
    have hv2 : (if (('(' : Char) :: (t.data ++ [')'])).head? = some '(' ∧
          (('(' : Char) :: (t.data ++ [')'])).getLast? = some ')'
        then ((('(' : Char) :: (t.data ++ [')'])).drop 1).dropLast
        else ('(' : Char) :: (t.data ++ [')'])) = t.data := by
      rw [if_pos hcond]
      show (t.data ++ [')']).dropLast = t.data
      exact List.dropLast_concat
    simp only [parse_currency]
    rw [if_neg hne0]
    simp only [hstrip]
    rw [hv2, if_neg hne, hq]
    show some (if (('(' : Char) :: (t.data ++ [')'])).head? = some '(' ∧
        (('(' : Char) :: (t.data ++ [')'])).getLast? = some ')' then -q else q) = some (-q)
    rw [if_pos hcond]

theorem c8_counterexample :
    parse_numeric (some "($500.00)") = none ∧
    parse_currency (some "($500.00)") = some (-500) := by
  refine ⟨by decide, by decide⟩

/-! ### Explicit overrides (C4) -/

theorem find?_map_set_self (t : List (String × String)) (k v : String)
    (hany : t.any (fun p => p.1 == k) = true) :
    (t.map (fun p => if p.1 == k then (k, v) else p)).find? (fun p => p.1 == k) =
      some (k, v) := by
  have hkk : (k == k) = true := by simp
  induction t with
  | nil => simp at hany
  | cons p t ih =>
    simp only [List.map_cons]
    by_cases hp : (p.1 == k) = true
    · rw [if_pos hp]
      simp only [List.find?, hkk]
    · rw [if_neg hp]
      have hp' : (p.1 == k) = false := by simpa using hp
      simp only [List.any_cons, hp', Bool.false_or] at hany
      simp only [List.find?, hp']
      exact ih hany

theorem find?_append_fresh (t : List (String × String)) (k v : String)
    (hnone : t.any (fun p => p.1 == k) = false) :
    (t ++ [(k, v)]).find? (fun p => p.1 == k) = some (k, v) := by
  have hkk : (k == k) = true := by simp
  induction t with
  | nil =>
    simp only [List.nil_append, List.find?, hkk]
  | cons p t ih =>
    simp only [List.any_cons, Bool.or_eq_false_iff] at hnone
    rw [List.cons_append]
    simp only [List.find?, hnone.1]
    exact ih hnone.2

/-- Writing `m[k] = v` makes a later `m.get(k)` read `v`. -/
theorem dictGet?_dictSet_self (m : List (String × String)) (k v : String) :
    dictGet? (dictSet m k v) k = some v := by
  unfold dictSet dictGet?
  by_cases hany : m.any (fun p => p.1 == k) = true
  · rw [if_pos hany, find?_map_set_self m k v hany]
    rfl
  · rw [Bool.not_eq_true] at hany
    rw [if_neg (by rw [hany]; exact Bool.false_ne_true), find?_append_fresh m k v hany]
    rfl

theorem find?_map_set_ne (t : List (String × String)) (k v k' : String)
    (hne : k' ≠ k) :
    (t.map (fun p => if p.1 == k then (k, v) else p)).find? (fun p => p.1 == k') =
      t.find? (fun p => p.1 == k') := by
  have hk' : (k == k') = false := by
    rw [beq_eq_false_iff_ne]
    exact fun h => hne h.symm
  induction t with
  | nil => rfl
  | cons p t ih =>
    simp only [List.map_cons]
    by_cases hp : (p.1 == k) = true
    · have hp1 : p.1 = k := eq_of_beq hp
      have hpk' : (p.1 == k') = false := by
        rw [hp1]
        exact hk'
      rw [if_pos hp]
      simp only [List.find?, hk', hpk']
      exact ih
    · rw [if_neg hp]
      by_cases hq : (p.1 == k') = true
      · simp only [List.find?, hq]
      · have hq' : (p.1 == k') = false := by simpa using hq
        simp only [List.find?, hq']
        exact ih

theorem find?_append_ne (t : List (String × String)) (k v k' : String)
    (hne : k' ≠ k) :
    (t ++ [(k, v)]).find? (fun p => p.1 == k') = t.find? (fun p => p.1 == k') := by
  have hk' : (k == k') = false := by
    rw [beq_eq_false_iff_ne]
    exact fun h => hne h.symm
  induction t with
  | nil =>
    simp only [List.nil_append, List.find?, hk']
  | cons p t ih =>
    rw [List.cons_append]
    by_cases hq : (p.1 == k') = true
    · simp only [List.find?, hq]
    · have hq' : (p.1 == k') = false := by simpa using hq
      simp only [List.find?, hq']
      exact ih

/-- Writing `m[k] = v` leaves every other key's lookup unchanged. -/
theorem dictGet?_dictSet_ne (m : List (String × String)) (k v k' : String)
    (hne : k' ≠ k) : dictGet? (dictSet m k v) k' = dictGet? m k' := by
  unfold dictSet dictGet?
  by_cases hany : m.any (fun p => p.1 == k) = true
  · rw [if_pos hany, find?_map_set_ne m k v k' hne]
  · rw [if_neg hany, find?_append_ne m k v k' hne]

/-- The override loop never touches a header that is not an override key. -/
theorem applyOverrides_preserve (cols : List String) :
    ∀ (ovs : List (String × String)) (m : List (String × String)) (h : String),
      h ∉ ovs.map Prod.fst →
      dictGet? (applyOverrides m ovs cols) h = dictGet? m h := by
  intro ovs
  induction ovs with
  | nil => intro m h _; rfl
  | cons p tl ih =>
    intro m h hh
    simp only [List.map_cons, List.mem_cons, not_or] at hh
    obtain ⟨h1, h2⟩ := hh
    show dictGet? (applyOverrides (if p.1 ∈ cols then dictSet m p.1 p.2 else m) tl cols) h =
      dictGet? m h
    rw [ih _ h h2]
    by_cases hc : p.1 ∈ cols
    · rw [if_pos hc, dictGet?_dictSet_ne m p.1 p.2 h h1]
    · rw [if_neg hc]

/-- An override whose header is a column of the table ends up in the final
mapping, whatever the earlier mapping said. -/
theorem applyOverrides_mem (cols : List String) :
    ∀ (ovs : List (String × String)) (m : List (String × String)) (h t : String),
      (h, t) ∈ ovs → h ∈ cols → (ovs.map Prod.fst).Nodup →
      dictGet? (applyOverrides m ovs cols) h = some t := by
  intro ovs
  induction ovs with
  | nil => intro m h t hmem _ _; cases hmem
  | cons p tl ih =>
    intro m h t hmem hcol hnd
    simp only [List.map_cons, List.nodup_cons] at hnd
    obtain ⟨hp_not, hnd'⟩ := hnd
    rcases List.mem_cons.mp hmem with heq | hmem'
    · have hph : p.1 = h := by rw [← heq]
      show dictGet? (applyOverrides (if p.1 ∈ cols then dictSet m p.1 p.2 else m) tl cols) h =
        some t
      rw [applyOverrides_preserve cols tl _ h (by rw [← hph]; exact hp_not)]
      rw [if_pos (hph ▸ hcol)]
      have hpv : p.2 = t := by rw [← heq]
      rw [hph, hpv]
      exact dictGet?_dictSet_self m h t
    · show dictGet? (applyOverrides (if p.1 ∈ cols then dictSet m p.1 p.2 else m) tl cols) h =
        some t
      exact ih _ h t hmem' hcol hnd'

/-- C4.  An explicit override `{header: target}` whose header occurs among the
table's columns is applied after the automatic pass and wins unconditionally:
the final mapping sends that header to the override's target, whatever the
automatic pass (`m`, an arbitrary prior mapping) had assigned it; headers that
are not override keys keep their automatic assignment. -/
theorem c4_override_unconditional (m ovs : List (String × String)) (cols : List String)
    (h t : String) (hmem : (h, t) ∈ ovs) (hcol : h ∈ cols)
    (hnd : (ovs.map Prod.fst).Nodup) :
    dictGet? (applyOverrides m ovs cols) h = some t ∧
    (∀ h', h' ∉ ovs.map Prod.fst →
      dictGet? (applyOverrides m ovs cols) h' = dictGet? m h') :=
  ⟨applyOverrides_mem cols ovs m h t hmem hcol hnd,
    fun h' hh => applyOverrides_preserve cols ovs m h' hh⟩

theorem c4_witness :
    dictGet? (applyOverrides [("PIN", "parcel_id")] [("PIN", "face_amount")] ["PIN"]) "PIN" =
      some "face_amount" ∧
    (∀ h', h' ∉ ([("PIN", "face_amount")].map Prod.fst) →
      dictGet? (applyOverrides [("PIN", "parcel_id")] [("PIN", "face_amount")] ["PIN"]) h' =
        dictGet? [("PIN", "parcel_id")] h') :=
  c4_override_unconditional [("PIN", "parcel_id")] [("PIN", "face_amount")] ["PIN"]
    "PIN" "face_amount" (by decide) (by decide) (by decide)

/-! ### The greedy one-to-one mapping pass (C3) -/

/-- The column `selectBest` settles on (beyond its running candidate) is an
unclaimed member of the column list. -/
theorem selectBest_mem (score : String → String → ℕ) (cands : List String) :
    ∀ (cols used : List String) (bm : Option String) (bs : ℕ) (h : String) (s : ℕ),
      selectBest score cands cols used bm bs = (some h, s) →
      bm = some h ∨ (h ∈ cols ∧ h ∉ used) := by
  intro cols
  induction cols with
  | nil =>
    intro used bm bs h s hsel
    exact Or.inl (congrArg Prod.fst hsel)
  | cons col rest ih =>
    intro used bm bs h s hsel
    simp only [selectBest] at hsel
    by_cases hu : col ∈ used
    · rw [if_pos hu] at hsel
      rcases ih used bm bs h s hsel with h1 | h2
      · exact Or.inl h1
      · exact Or.inr ⟨List.mem_cons_of_mem _ h2.1, h2.2⟩
    · rw [if_neg hu] at hsel
      by_cases hex : pyStrip (pyLower col) ∈ cands.map pyLower
      · rw [if_pos hex] at hsel
        have h1 : some col = some h := congrArg Prod.fst hsel
        injection h1 with h2
        subst h2
        exact Or.inr ⟨List.mem_cons_self _ _, hu⟩
      · rw [if_neg hex] at hsel
        by_cases him : bs < extractOneScore score (pyStrip (pyLower col)) cands
        · rw [if_pos him] at hsel
          rcases ih used (some col) _ h s hsel with h1 | h2
          · injection h1 with h2
            subst h2
            exact Or.inr ⟨List.mem_cons_self _ _, hu⟩
          · exact Or.inr ⟨List.mem_cons_of_mem _ h2.1, h2.2⟩
        · rw [if_neg him] at hsel
          rcases ih used bm bs h s hsel with h1 | h2
          · exact Or.inl h1
          · exact Or.inr ⟨List.mem_cons_of_mem _ h2.1, h2.2⟩

/-- Entries already accumulated survive the rest of the detection pass. -/
theorem detectFrom_mono (score : String → String → ℕ) (columns : List String) :
    ∀ (ts : List (String × List String)) (acc : List (String × String))
      (x : String × String), x ∈ acc → x ∈ detectFrom score columns ts acc := by
  intro ts
  induction ts with
  | nil => intro acc x hx; exact hx
  | cons p rest ih =>
    intro acc x hx
    rcases p with ⟨tf, cands⟩
    show x ∈ detectFrom score columns ((tf, cands) :: rest) acc
    simp only [detectFrom]
    rcases hsel : selectBest score cands columns (acc.map Prod.fst) none 0 with ⟨bm, s⟩
    cases bm with
    | none => exact ih acc x hx
    | some hcol =>
      show x ∈ (if FUZZY_THRESHOLD ≤ s
        then detectFrom score columns rest (acc ++ [(hcol, tf)])
        else detectFrom score columns rest acc)
      by_cases h70 : FUZZY_THRESHOLD ≤ s
      · rw [if_pos h70]
        exact ih _ x (List.mem_append_left _ hx)
      · rw [if_neg h70]
        exact ih acc x hx

/-- Detection over a split target list runs the suffix from the prefix's
accumulated mapping. -/
theorem detectFrom_append (score : String → String → ℕ) (columns : List String) :
    ∀ (l1 l2 : List (String × List String)) (acc : List (String × String)),
      detectFrom score columns (l1 ++ l2) acc =
        detectFrom score columns l2 (detectFrom score columns l1 acc) := by
  intro l1
  induction l1 with
  | nil => intro l2 acc; rfl
  | cons p rest ih =>
    intro l2 acc
    rcases p with ⟨tf, cands⟩
    rw [List.cons_append]
    simp only [detectFrom]
    rcases hsel : selectBest score cands columns (acc.map Prod.fst) none 0 with ⟨bm, s⟩
    cases bm with
    | none => exact ih l2 acc
    | some hcol =>
      show (if FUZZY_THRESHOLD ≤ s
          then detectFrom score columns (rest ++ l2) (acc ++ [(hcol, tf)])
          else detectFrom score columns (rest ++ l2) acc) =
        detectFrom score columns l2
          (if FUZZY_THRESHOLD ≤ s
            then detectFrom score columns rest (acc ++ [(hcol, tf)])
            else detectFrom score columns rest acc)
      by_cases h70 : FUZZY_THRESHOLD ≤ s
      · rw [if_pos h70, if_pos h70]
        exact ih l2 _
      · rw [if_neg h70, if_neg h70]
        exact ih l2 acc

/-- The detection pass keeps the mapping's key list (the claimed columns)
duplicate-free. -/
theorem detectFrom_keys_nodup (score : String → String → ℕ) (columns : List String) :
    ∀ (ts : List (String × List String)) (acc : List (String × String)),
      (acc.map Prod.fst).Nodup → ((detectFrom score columns ts acc).map Prod.fst).Nodup := by
  intro ts
  induction ts with
  | nil => intro acc hacc; exact hacc
  | cons p rest ih =>
    intro acc hacc
    rcases p with ⟨tf, cands⟩
    show ((detectFrom score columns ((tf, cands) :: rest) acc).map Prod.fst).Nodup
    simp only [detectFrom]
    rcases hsel : selectBest score cands columns (acc.map Prod.fst) none 0 with ⟨bm, s⟩
    cases bm with
    | none => exact ih acc hacc
    | some hcol =>
      show ((if FUZZY_THRESHOLD ≤ s
        then detectFrom score columns rest (acc ++ [(hcol, tf)])
        else detectFrom score columns rest acc).map Prod.fst).Nodup
      by_cases h70 : FUZZY_THRESHOLD ≤ s
      · rw [if_pos h70]
        apply ih
        have hfresh : hcol ∉ acc.map Prod.fst := by
          rcases selectBest_mem score cands columns (acc.map Prod.fst) none 0 hcol s hsel
            with h1 | h2
          · cases h1
          · exact h2.2
        rw [List.map_append]
        refine List.Nodup.append hacc (List.nodup_singleton _) ?_
        intro a ha hb
        simp only [List.map_cons, List.map_nil, List.mem_singleton] at hb
        exact hfresh (hb ▸ ha)
      · rw [if_neg h70]
        exact ih acc hacc

/-- The detection pass claims each target field at most once: the mapping's
value list stays duplicate-free when the remaining target fields are fresh
and pairwise distinct. -/
theorem detectFrom_targets_nodup (score : String → String → ℕ) (columns : List String) :
    ∀ (ts : List (String × List String)) (acc : List (String × String)),
      (acc.map Prod.snd).Nodup →
      (∀ p ∈ ts, p.1 ∉ acc.map Prod.snd) →
      (ts.map Prod.fst).Nodup →
      ((detectFrom score columns ts acc).map Prod.snd).Nodup := by
  intro ts
  induction ts with
  | nil => intro acc hacc _ _; exact hacc
  | cons p rest ih =>
    intro acc hacc hfr hnd
    rcases p with ⟨tf, cands⟩
    simp only [List.map_cons, List.nodup_cons] at hnd
    obtain ⟨htf, hnd'⟩ := hnd
    show ((detectFrom score columns ((tf, cands) :: rest) acc).map Prod.snd).Nodup
    simp only [detectFrom]
    rcases hsel : selectBest score cands columns (acc.map Prod.fst) none 0 with ⟨bm, s⟩
    cases bm with
    | none =>
      exact ih acc hacc (fun q hq => hfr q (List.mem_cons_of_mem _ hq)) hnd'
    | some hcol =>
      show ((if FUZZY_THRESHOLD ≤ s
        then detectFrom score columns rest (acc ++ [(hcol, tf)])
        else detectFrom score columns rest acc).map Prod.snd).Nodup
      by_cases h70 : FUZZY_THRESHOLD ≤ s
      · rw [if_pos h70]
        apply ih (acc ++ [(hcol, tf)]) ?_ ?_ hnd'
        · rw [List.map_append]
          refine List.Nodup.append hacc (List.nodup_singleton _) ?_
          intro a ha hb
          simp only [List.map_cons, List.map_nil, List.mem_singleton] at hb
          exact hfr (tf, cands) (List.mem_cons_self _ _) (hb ▸ ha)
        · intro q hq hmem
          rw [List.map_append, List.mem_append] at hmem
          rcases hmem with h1 | h2
          · exact hfr q (List.mem_cons_of_mem _ hq) h1
          · simp only [List.map_cons, List.map_nil, List.mem_singleton] at h2
            exact htf (List.mem_map.mpr ⟨q, hq, h2⟩)
      · rw [if_neg h70]
        exact ih acc hacc (fun q hq => hfr q (List.mem_cons_of_mem _ hq)) hnd'

/-- In a mapping with duplicate-free keys, a key determines its value. -/
theorem keys_nodup_unique {l : List (String × String)}
    (hnd : (l.map Prod.fst).Nodup) {a b c : String}
    (h1 : (a, b) ∈ l) (h2 : (a, c) ∈ l) : b = c := by
  induction l with
  | nil => cases h1
  | cons p t ih =>
    simp only [List.map_cons, List.nodup_cons] at hnd
    obtain ⟨hp, hnd'⟩ := hnd
    rcases List.mem_cons.mp h1 with e1 | m1 <;> rcases List.mem_cons.mp h2 with e2 | m2
    · have e3 := e1.trans e2.symm
      exact congrArg Prod.snd e3
    · exfalso
      apply hp
      rw [← e1]
      exact List.mem_map.mpr ⟨(a, c), m2, rfl⟩
    · exfalso
      apply hp
      rw [← e2]
      exact List.mem_map.mpr ⟨(a, b), m1, rfl⟩
    · exact ih hnd' m1 m2

/-- C3.  For every scorer, header list and threshold run: the automatic pass
is one-to-one (no column claimed twice, no target field claiming twice), and
a header that qualifies for the `i`-th target field at its turn is awarded to
that target field, never to a later `j`-th target field — the fixed
declaration order of `COLUMN_CANDIDATES` is the tie-break. -/
theorem c3_mapping_one_to_one_first_wins (score : String → String → ℕ)
    (columns : List String) (i j : ℕ) (h : String) (hij : i < j)
    (hj : j < COLUMN_CANDIDATES.length)
    (hq : claimedAt score columns i = some h) :
    ((detectColumnMappings score columns).map Prod.fst).Nodup ∧
    ((detectColumnMappings score columns).map Prod.snd).Nodup ∧
    (h, (COLUMN_CANDIDATES.get ⟨i, Nat.lt_trans hij hj⟩).1) ∈
      detectColumnMappings score columns ∧
    (h, (COLUMN_CANDIDATES.get ⟨j, hj⟩).1) ∉ detectColumnMappings score columns := by
  have hi : i < COLUMN_CANDIDATES.length := Nat.lt_trans hij hj
  have hkeys : ((detectColumnMappings score columns).map Prod.fst).Nodup :=
    detectFrom_keys_nodup score columns COLUMN_CANDIDATES [] (by simp)
  have htargets : ((detectColumnMappings score columns).map Prod.snd).Nodup := by
    refine detectFrom_targets_nodup score columns COLUMN_CANDIDATES [] (by simp)
      (by simp) ?_
    decide
  have hdrop : COLUMN_CANDIDATES.drop i =
      COLUMN_CANDIDATES.get ⟨i, hi⟩ :: COLUMN_CANDIDATES.drop (i + 1) :=
    List.drop_eq_get_cons hi
  unfold claimedAt at hq
  rw [hdrop] at hq
  set acc := detectFrom score columns (COLUMN_CANDIDATES.take i) [] with hacc
  have hsplit : detectColumnMappings score columns =
      detectFrom score columns (COLUMN_CANDIDATES.drop i) acc := by
    rw [hacc]
    unfold detectColumnMappings
    conv_lhs => rw [← List.take_append_drop i COLUMN_CANDIDATES]
    rw [detectFrom_append]
  rcases hgi : COLUMN_CANDIDATES.get ⟨i, hi⟩ with ⟨tf, cands⟩
  rw [hgi] at hq hdrop
  have hq2 : (match selectBest score cands columns (acc.map Prod.fst) none 0 with
      | (some h', s) => if FUZZY_THRESHOLD ≤ s then some h' else none
      | (none, _) => none) = some h := hq
  rcases hsel : selectBest score cands columns (acc.map Prod.fst) none 0 with ⟨bm, s⟩
  rw [hsel] at hq2
  cases bm with
  | none => cases hq2
  | some h' =>
    have hq3 : (if FUZZY_THRESHOLD ≤ s then some h' else none) = some h := hq2
    by_cases h70 : FUZZY_THRESHOLD ≤ s
    · rw [if_pos h70] at hq3
      injection hq3 with hq4
      subst hq4
      have hmem_i : (h', tf) ∈ detectColumnMappings score columns := by
        rw [hsplit, hdrop]
        simp only [detectFrom]
        rw [hsel]
        show (h', tf) ∈ (if FUZZY_THRESHOLD ≤ s
          then detectFrom score columns (List.drop (i + 1) COLUMN_CANDIDATES)
            (acc ++ [(h', tf)])
          else detectFrom score columns (List.drop (i + 1) COLUMN_CANDIDATES) acc)
        rw [if_pos h70]
        exact detectFrom_mono score columns _ _ _ (List.mem_append_right _ (by simp))
      refine ⟨hkeys, htargets, hmem_i, ?_⟩
      intro hmem_j
      have heq : tf = (COLUMN_CANDIDATES.get ⟨j, hj⟩).1 :=
        keys_nodup_unique hkeys hmem_i hmem_j
      have hnodup : (COLUMN_CANDIDATES.map Prod.fst).Nodup := by decide
      have hlen : (COLUMN_CANDIDATES.map Prod.fst).length = COLUMN_CANDIDATES.length :=
        List.length_map _ _
      have hgeti : (COLUMN_CANDIDATES.map Prod.fst).get ⟨i, by rw [hlen]; exact hi⟩ =
          (COLUMN_CANDIDATES.get ⟨i, hi⟩).1 := List.get_map _
      have hgetj : (COLUMN_CANDIDATES.map Prod.fst).get ⟨j, by rw [hlen]; exact hj⟩ =
          (COLUMN_CANDIDATES.get ⟨j, hj⟩).1 := List.get_map _
      have hij2 : (⟨i, by rw [hlen]; exact hi⟩ : Fin (COLUMN_CANDIDATES.map Prod.fst).length) =
          ⟨j, by rw [hlen]; exact hj⟩ := by
        rw [← hnodup.get_inj_iff]
        rw [hgeti, hgetj, hgi, ← heq]
      have hij3 : i = j := congrArg Fin.val hij2
      omega
    · rw [if_neg h70] at hq3
      cases hq3

theorem c3_witness :
    ((detectColumnMappings (fun _ _ => 0) ["pin"]).map Prod.fst).Nodup ∧
    ((detectColumnMappings (fun _ _ => 0) ["pin"]).map Prod.snd).Nodup ∧
    ("pin", "parcel_id") ∈ detectColumnMappings (fun _ _ => 0) ["pin"] ∧
    ("pin", "address") ∉ detectColumnMappings (fun _ _ => 0) ["pin"] := by
  have h := c3_mapping_one_to_one_first_wins (fun _ _ => 0) ["pin"] 0 1 "pin"
    (by decide) (by decide) (by decide)
  exact ⟨h.1, h.2.1, h.2.2.1, h.2.2.2⟩

/-! ### Row-skip conditions during file ingestion (C5) -/

/-- A row contributes a record exactly when its parcel id resolves to a
truthy value and the `TaxLien` construction succeeds. -/
theorem transformRow_isSome (state : String) (county? : Option String)
    (mappings : List (String × String)) (r : Row) :
    (transformRow state county? mappings r).isSome =
      (rowHasParcel mappings r && rowConstructs state county? mappings r) := by
  simp only [transformRow, rowHasParcel, rowConstructs]
  rcases hg : getMappedValue r (reverseMap mappings) "parcel_id" with _ | pid
  · simp
  · by_cases hpid : pid = ""
    · simp [hpid]
    · rcases hmk : mkTaxLien state
          (orStr (getMappedValue r (reverseMap mappings) "county") (orStr county? "Unknown"))
          (pyStrip pid)
          (getMappedValue r (reverseMap mappings) "address")
          (parse_numeric (getMappedValue r (reverseMap mappings) "assessed_value"))
          (orZero (parse_numeric (getMappedValue r (reverseMap mappings) "face_amount")))
          (parse_numeric (getMappedValue r (reverseMap mappings) "interest_rate_bid"))
          (getMappedValue r (reverseMap mappings) "auction_date")
          SourcePlatform.MANUAL_UPLOAD (some r) with e | l
      · simp [hpid, hmk]
      · simp [hpid, hmk]

theorem transformDataframe_length (state : String) (county? : Option String)
    (mappings : List (String × String)) (rows : List Row) :
    (transformDataframe state county? mappings rows).length =
      (rows.filter (fun r =>
        rowHasParcel mappings r && rowConstructs state county? mappings r)).length := by
  induction rows with
  | nil => rfl
  | cons r t ih =>
    have h := transformRow_isSome state county? mappings r
    show (List.filterMap (transformRow state county? mappings) (r :: t)).length = _
    rcases ho : transformRow state county? mappings r with _ | l
    · rw [ho] at h
      rw [List.filterMap_cons, ho, List.filter_cons, ← h]
      simp only [Option.isSome_none, Bool.false_eq_true, if_false]
      exact ih
    · rw [ho] at h
      rw [List.filterMap_cons, ho, List.filter_cons, ← h]
      simp only [Option.isSome_some, if_true, List.length_cons]
      show (transformDataframe state county? mappings t).length + 1 = _
      rw [ih]

/-- C5 (amended).  A row lacking a resolvable truthy parcel id is skipped,
but it is *not* the only skip condition: a row whose record construction
fails validation is skipped too, and the batch count is the number of rows
with a resolvable parcel id *and* a successful construction. -/
theorem c5_row_skip_conditions (state : String) (county? : Option String)
    (mappings : List (String × String)) (rows : List Row) :
    ((transformDataframe state county? mappings rows).length =
      (rows.filter (fun r =>
        rowHasParcel mappings r && rowConstructs state county? mappings r)).length) ∧
    (∀ r, rowHasParcel mappings r = false →
      transformRow state county? mappings r = none) ∧
    (∀ r, rowHasParcel mappings r = true → rowConstructs state county? mappings r = true →
      (transformRow state county? mappings r).isSome = true) ∧
    (∀ score overrides columns rows2 fp today,
      (fetchModel score state county? overrides columns rows2 fp today).count =
        (transformDataframe state county?
          (applyOverrides (detectColumnMappings score columns) overrides columns)
          rows2).length) := by
  refine ⟨transformDataframe_length state county? mappings rows, ?_, ?_,
    fun _ _ _ _ _ _ => rfl⟩
  · intro r hr
    have h := transformRow_isSome state county? mappings r
    rw [hr, Bool.false_and] at h
    rcases ho : transformRow state county? mappings r with _ | l
    · rfl
    · rw [ho] at h
      cases h
  · intro r h1 h2
    rw [transformRow_isSome, h1, h2]
    rfl

/-- A scorer that never fuzzy-matches: only case-insensitive exact synonym
hits can claim a column under it. -/
def zeroScore : String → String → ℕ := fun _ _ => 0

def c5Columns : List String := ["pin", "interest rate"]

/-- A row with a resolvable parcel id whose interest rate, 150, violates the
`le=100` bound of `interest_rate_bid`. -/
def c5Row : Row := [("pin", some "P1"), ("interest rate", some "150")]

def c5Mappings : List (String × String) :=
  applyOverrides (detectColumnMappings zeroScore c5Columns) [] c5Columns

/-- C5 counterexample.  The single row resolves parcel id `"P1"`, so the claim
says the batch count is 1; the code skips the row because construction fails
on the out-of-range interest rate, and the count is 0. -/
theorem c5_counterexample :
    (([c5Row].filter (fun r => rowHasParcel c5Mappings r)).length = 1) ∧
    getMappedValue c5Row (reverseMap c5Mappings) "parcel_id" = some "P1" ∧
    (fetchModel zeroScore "FL" none [] c5Columns [c5Row] none 0).count = 0 := by
  refine ⟨by decide, by decide, by decide⟩

theorem c5_witness :
    transformRow "FL" none c5Mappings [("address", some "nowhere")] = none := by
  have h := c5_row_skip_conditions "FL" none c5Mappings [[("address", some "nowhere")]]
  exact h.2.1 [("address", some "nowhere")] (by decide)

theorem c8_witness :
    parse_numeric (some "$1,250.00") = some 1250 ∧
    parse_numeric (some " 18 % ") = some 18 ∧
    parse_currency (some ("(" ++ "$500.00" ++ ")")) = some (-(500 : ℚ)) := by
  refine ⟨?_, ?_, ?_⟩
  · exact c8_numeric_decoration.1 "$1,250.00" 1250 (by decide) (by decide)
  · exact c8_numeric_decoration.1 " 18 % " 18 (by decide) (by decide)
  · exact c8_numeric_decoration.2 "$500.00" 500 (by decide) (by decide)

end
